import Mathlib

/-!
Verification development for the masternode coordination layer
(eth/masternode_manager.go of go-etherzero).

The Go source is shallowly embedded: machine integers become Nat/Int,
Go maps keyed by pointers become association lists whose keys carry an
allocation index, the unspecified iteration order of a Go map becomes an
explicit order parameter constrained to be a permutation of the map
entries, and a Go runtime panic becomes the `GoResult.panics` value.
-/

namespace Masternode

/-- Result of running a Go function: either it panics at runtime or it
returns a value. -/
inductive GoResult (α : Type) where
  | panics : GoResult α
  | ret : α → GoResult α
deriving DecidableEq, Repr

/-- A registered masternode record, embedding masternode.Masternode as used by
the manager: ID string, Height (join height, node.Height.Int64()), the
registered network endpoint (n.Node.IP as a byte list, n.Node.TCP as the
port), and the protocol version field of the record. -/
structure Node where
  id : String
  height : Int
  ip : List Nat
  tcp : Nat
  protocolVersion : Int
deriving DecidableEq, Repr

/-- Modelled from the spec: CalculateScore (package masternode, whose source is
not under src/) is the deterministic Score function, a hash of the identity
and the block hash interpreted as a big integer.  The concrete mixing below is
a stand-in with the properties the spec states: pure, deterministic, and
value-distinct for distinct inputs in general. -/
def CalculateScore (id : String) (blockHash : Nat) : Nat :=
  id.data.foldl (fun a c => (a * 131 + c.toNat) % 1000000007) (blockHash % 1000000007)

/-- A Go pointer to a big.Int score value.  Each CalculateScore call in the
source allocates a fresh big.Int, so pointer identity is the allocation
index; the numeric value is reachable through the pointer. -/
structure ScorePtr where
  alloc : Nat
  val : Nat
deriving DecidableEq, Repr

/-- Embeds GetMasternodeScores (masternode_manager.go lines 248-256):
builds map[big.Int pointer]Masternode with one entry per registry node,
keyed by the freshly allocated score pointer.  The minProtocol parameter is
accepted and never read, exactly as in the source.  The Go map is embedded
as the association list of its entries in insertion order; all keys are
distinct because every allocation is fresh. -/
def GetMasternodeScores (nodes : List Node) (blockHash : Nat)
    (minProtocol : Int) : List (ScorePtr × Node) :=
  nodes.enum.map (fun p => (⟨p.1, CalculateScore p.2.id blockHash⟩, p.2))

/-- A Go range loop over the scores map yields its entries in an order the
language does not specify; a traversal order is valid when it is a
permutation of the map entries. -/
def ValidOrder (nodes : List Node) (blockHash : Nat)
    (order : List (ScorePtr × Node)) : Prop :=
  order.Perm (GetMasternodeScores nodes blockHash 1)

/-- Embeds the range loop of GetMasternodeRank (lines 236-244): tRank is
incremented on every entry; on the first entry whose node ID equals the
queried id, rank is set to tRank and the loop breaks; if no entry matches,
rank keeps its initial value 0. -/
def findRank (id : String) : List (ScorePtr × Node) → Nat
  | [] => 0
  | e :: rest =>
      if e.2.id = id then 1
      else if findRank id rest = 0 then 0 else findRank id rest + 1

/-- Embeds GetMasternodeRank (lines 224-246).  currentBlock is the hash of
blockchain.CurrentBlock(), or none when that call returns nil; in the nil
case the source dereferences the nil block in the log call at line 231
(block.Number()), a runtime panic, so the return at line 232 with false is
unreachable.  Otherwise the scores map is built with minProtocol 1 and
traversed in the given order; the function returns the break position and
true. -/
def GetMasternodeRank (id : String) (currentBlock : Option Nat)
    (order : List (ScorePtr × Node)) : GoResult (Nat × Bool) :=
  match currentBlock with
  | none => GoResult.panics
  | some _ => GoResult.ret (findRank id order, true)

/-- SIGNATURES_TOTAL constant (line 47). -/
def SIGNATURES_TOTAL : Nat := 10

/-- Embeds the gating logic of ProcessTxLockVotes (lines 258-270): true means
the submission passed the rank gate and is handed to
InstantSend.ProcessTxLockVotes, false means it is rejected before that
call. -/
def ProcessTxLockVotesGate (activeId : String) (currentBlock : Option Nat)
    (order : List (ScorePtr × Node)) : GoResult Bool :=
  match GetMasternodeRank activeId currentBlock order with
  | GoResult.panics => GoResult.panics
  | GoResult.ret (rank, ok) =>
      if ok = false then GoResult.ret false
      else if rank > SIGNATURES_TOTAL then GoResult.ret false
      else GoResult.ret true

/-- Embeds GetNextMasternodeInQueueForPayment (lines 187-222).  The local
sortMap is declared as a nil map and never allocated, so the first iteration
of the loop over the registry panics on the write sortMap[i] = node at line
203; hence every non-empty registry panics.  With an empty registry both
loops are skipped and the function returns winner nil and error nil.  The
nil-set guard at line 197 is embedded for the none case (Len of the nil set
is taken as 0 so control reaches the guard).  The block hash is only read
after the panicking write, matching the source. -/
def GetNextMasternodeInQueueForPayment (registry : Option (List Node))
    (blockHash : Nat) : GoResult (Option Node × Option String) :=
  match registry with
  | none => GoResult.ret (none, some "no masternode detected")
  | some [] => GoResult.ret (none, none)
  | some (_ :: _) => GoResult.panics

/-- The two active-masternode states produced by updateActiveMasternode.
Modelled from the spec: the package masternode constants
ACTIVE_MASTERNODE_NOT_CAPABLE and ACTIVE_MASTERNODE_STARTED (their source is
not under src/) are the ActiveNodeState enumeration values NotCapable and
Started. -/
inductive ActiveState where
  | notCapable : ActiveState
  | started : ActiveState
deriving DecidableEq, Repr

/-- Embeds masternodes.Node(id): registry lookup by ID.  Modelled from the
spec: Lookup(identity) returns the record for the identity when present. -/
def lookupNode (reg : List Node) (id : String) : Option Node :=
  reg.find? (fun n => n.id = id)

/-- The local active masternode: its ID, its locally bound endpoint
(active.Addr.IP and active.Addr.Port), and its current state. -/
structure ActiveMasternode where
  id : String
  ip : List Nat
  port : Nat
  state : ActiveState
deriving DecidableEq, Repr

/-- Embeds the state computation of updateActiveMasternode (lines 287-304):
registry lookup of the active ID; nil record, or a TCP port differing from
the locally bound port, or an IP differing from the locally bound IP, give
NOT_CAPABLE; otherwise STARTED. -/
def computeActiveState (reg : List Node) (activeId : String)
    (activeIp : List Nat) (activePort : Nat) : ActiveState :=
  match lookupNode reg activeId with
  | none => ActiveState.notCapable
  | some n =>
      if n.tcp ≠ activePort then ActiveState.notCapable
      else if n.ip ≠ activeIp then ActiveState.notCapable
      else ActiveState.started

/-- Embeds updateActiveMasternode: the computed state overwrites the previous
state through SetState, unconditionally. -/
def updateActiveMasternode (reg : List Node) (a : ActiveMasternode) :
    ActiveMasternode :=
  { a with state := computeActiveState reg a.id a.ip a.port }

/-- Events multiplexed by the select statement of masternodeLoop
(lines 344-384): a join event, a quit event, or an error delivered on the
join or quit subscription error channel. -/
inductive MnEvent where
  | join : String → MnEvent
  | quit : String → MnEvent
  | joinErr : MnEvent
  | quitErr : MnEvent
deriving DecidableEq, Repr

/-- State carried across iterations of masternodeLoop: the registry of node
IDs and whether each of the two subscriptions is still subscribed. -/
structure LoopState where
  registry : List String
  joinSubscribed : Bool
  quitSubscribed : Bool
deriving DecidableEq, Repr

/-- Embeds masternodes.NodeJoin.  Modelled from the spec: Join inserts or
replaces the record for the identity, keeping at most one record per
identity. -/
def nodeJoin (reg : List String) (id : String) : List String :=
  if id ∈ reg then reg else reg ++ [id]

/-- Embeds masternodes.NodeQuit.  Modelled from the spec: Quit removes the
record for the identity if present. -/
def nodeQuit (reg : List String) (id : String) : List String :=
  reg.filter (fun x => x ≠ id)

/-- Embeds one iteration of the select loop of masternodeLoop
(lines 344-384).  A join event applies NodeJoin, a quit event applies
NodeQuit.  An error received on a subscription error channel unsubscribes
that one subscription and prints the error; no case returns from the loop or
sets any stop condition, so the next iteration runs regardless. -/
def masternodeStep (st : LoopState) (ev : MnEvent) : LoopState :=
  match ev with
  | MnEvent.join id => { st with registry := nodeJoin st.registry id }
  | MnEvent.quit id => { st with registry := nodeQuit st.registry id }
  | MnEvent.joinErr => { st with joinSubscribed := false }
  | MnEvent.quitErr => { st with quitSubscribed := false }

/-- Runs the select loop of masternodeLoop over a finite schedule of
delivered events, one event per iteration. -/
def masternodeLoopRun (st : LoopState) (evs : List MnEvent) : LoopState :=
  evs.foldl masternodeStep st

/-! Concrete fixtures used by the claim theorems. -/

/-- Fixture node with identity A. -/
def nodeA : Node :=
  { id := "A", height := 5, ip := [127, 0, 0, 1], tcp := 30303,
    protocolVersion := 0 }

/-- Fixture node with identity B. -/
def nodeB : Node :=
  { id := "B", height := 3, ip := [10, 0, 0, 2], tcp := 30304,
    protocolVersion := 64004 }

/-- Fixture node with identity C. -/
def nodeC : Node :=
  { id := "C", height := 9, ip := [10, 0, 0, 3], tcp := 30305,
    protocolVersion := 64004 }

/-- A queried identity that is absent from the fixture registries. -/
def idQ : String := "Q"

/-- A local active identity that is absent from the fixture registries. -/
def idZ : String := "Z"

/-- The local active masternode configured exactly as nodeA registers. -/
def activeA : ActiveMasternode :=
  { id := nodeA.id, ip := nodeA.ip, port := nodeA.tcp,
    state := ActiveState.notCapable }

/-! Helper lemmas about the embedded definitions. -/

/-- The value parts of the scores map are exactly the registry, in insertion
order. -/
theorem scores_map_snd (reg : List Node) (h : Nat) (mp : Int) :
    (GetMasternodeScores reg h mp).map Prod.snd = reg := by
  unfold GetMasternodeScores
  rw [List.map_map]
  have hc : (Prod.snd ∘ fun p : Nat × Node =>
      ((⟨p.1, CalculateScore p.2.id h⟩ : ScorePtr), p.2)) = Prod.snd := rfl
  rw [hc, List.enum_map_snd]

/-- findRank returns 0 exactly when no traversed entry carries the queried
identity. -/
theorem findRank_eq_zero_iff (id : String) (l : List (ScorePtr × Node)) :
    findRank id l = 0 ↔ ∀ e ∈ l, e.2.id ≠ id := by
  induction l with
  | nil => simp [findRank]
  | cons e rest ih =>
      by_cases he : e.2.id = id
      · simp [findRank, he]
      · by_cases hr : findRank id rest = 0
        · simp only [findRank, if_neg he, if_pos hr]
          constructor
          · intro _ x hx
            rcases List.mem_cons.mp hx with h1 | h2
            · rw [h1]; exact he
            · exact (ih.mp hr) x h2
          · intro _; trivial
        · simp only [findRank, if_neg he, if_neg hr]
          constructor
          · intro hcontra; exact absurd hcontra (Nat.succ_ne_zero _)
          · intro hall
            exact absurd (ih.mpr fun x hx => hall x (List.mem_cons_of_mem e hx)) hr

/-- When some traversed entry carries the queried identity, findRank is the
1-based position of the first such entry. -/
theorem findRank_pos_spec (id : String) (l : List (ScorePtr × Node))
    (hex : ∃ e ∈ l, e.2.id = id) :
    0 < findRank id l ∧ findRank id l ≤ l.length
      ∧ ∃ e, l.get? (findRank id l - 1) = some e ∧ e.2.id = id := by
  induction l with
  | nil => simp at hex
  | cons e rest ih =>
      by_cases he : e.2.id = id
      · refine ⟨?_, ?_, ?_⟩ <;> simp [findRank, he]
      · have hex2 : ∃ x ∈ rest, x.2.id = id := by
          rcases hex with ⟨x, hx, hxid⟩
          rcases List.mem_cons.mp hx with h1 | h2
          · exact absurd (h1 ▸ hxid) he
          · exact ⟨x, h2, hxid⟩
        have hr0 : findRank id rest ≠ 0 := by
          intro h0
          rcases hex2 with ⟨x, hx, hxid⟩
          exact (findRank_eq_zero_iff id rest).mp h0 x hx hxid
        rcases ih hex2 with ⟨hpos, hle, e2, hget, hid2⟩
        refine ⟨?_, ?_, ?_⟩
        · simp [findRank, he, hr0]
        · simp only [findRank, if_neg he, if_neg hr0, List.length_cons]
          omega
        · simp only [findRank, if_neg he, if_neg hr0]
          refine ⟨e2, ?_, hid2⟩
          have : findRank id rest + 1 - 1 = (findRank id rest - 1) + 1 := by omega
          rw [this, List.get?_cons_succ]
          exact hget

/-- Membership transfer: an entry of any valid traversal order carries a
registry node. -/
theorem mem_order_node (reg : List Node) (h : Nat)
    (order : List (ScorePtr × Node)) (hord : ValidOrder reg h order)
    (e : ScorePtr × Node) (he : e ∈ order) : e.2 ∈ reg := by
  have hmem : e ∈ GetMasternodeScores reg h 1 := hord.mem_iff.mp he
  have : e.2 ∈ (GetMasternodeScores reg h 1).map Prod.snd :=
    List.mem_map_of_mem Prod.snd hmem
  rwa [scores_map_snd] at this

/-- Membership transfer: every registry node appears as the value of some
entry of any valid traversal order. -/
theorem node_mem_order (reg : List Node) (h : Nat)
    (order : List (ScorePtr × Node)) (hord : ValidOrder reg h order)
    (n : Node) (hn : n ∈ reg) : ∃ e ∈ order, e.2 = n := by
  have : n ∈ (GetMasternodeScores reg h 1).map Prod.snd := by
    rw [scores_map_snd]; exact hn
  rcases List.mem_map.mp this with ⟨e, he, hsnd⟩
  exact ⟨e, hord.mem_iff.mpr he, hsnd⟩

/-! Claim theorems. -/

/-- Claim C1: the claim states that the ranking operation keeps exactly the
records with ProtocolVersion at least the floor, sorts descending by Score
with Identity as tie-break, and assigns ranks 1..count.  The code contradicts
it: with registry [nodeA, nodeB] at block hash 0, nodeA has the strictly
smaller score yet receives rank 1 under the insertion traversal order (a
valid order of the Go scores map), so the traversal is not sorted descending
by score; and the scores map built for protocol floor 999 equals the one
built for floor 1 even though nodeA carries protocol version 0, so no
eligibility filter is applied at all. -/
theorem c1_rank_not_sorted_not_filtered :
    CalculateScore nodeA.id 0 < CalculateScore nodeB.id 0
    ∧ ValidOrder [nodeA, nodeB] 0 (GetMasternodeScores [nodeA, nodeB] 0 1)
    ∧ GetMasternodeRank nodeA.id (some 0)
        (GetMasternodeScores [nodeA, nodeB] 0 1) = GoResult.ret (1, true)
    ∧ nodeA.protocolVersion < 999
    ∧ GetMasternodeScores [nodeA, nodeB] 0 999
        = GetMasternodeScores [nodeA, nodeB] 0 1 :=
  ⟨by decide, List.Perm.refl _, by decide, by decide, rfl⟩

/-- Claim C2: the claim states that for a registry of size 3 the payment
selection returns the most senior record.  The code instead panics: the
local sortMap is a nil Go map and the first write into it (line 203) is a
runtime panic, so a size-3 registry never reaches the comparison loop. -/
theorem c2_payment_registry_of_three_panics :
    GetNextMasternodeInQueueForPayment (some [nodeB, nodeA, nodeC]) 0
      = GoResult.panics := rfl

/-- Claim C3: the claim states that payment selection on a non-empty registry
runs to completion without a runtime fault.  The code panics on every
non-empty registry: the nil sortMap write at line 203 faults on the very
first node, before the nil highest accumulator at line 211 could even be
compared. -/
theorem c3_payment_nonempty_registry_panics :
    GetNextMasternodeInQueueForPayment (some [nodeA]) 7 = GoResult.panics := rfl

/-- Claim C4: the claim states that the rank computed for an identity is
identical across two invocations on identical inputs.  The code traverses a
Go map, whose traversal order is unspecified and randomized per traversal:
both the insertion order and its reverse are valid traversal orders of the
same scores map for the same registry and block hash, and they give nodeA
rank 1 and rank 2 respectively. -/
theorem c4_rank_depends_on_traversal_order :
    ValidOrder [nodeA, nodeB] 0 (GetMasternodeScores [nodeA, nodeB] 0 1)
    ∧ ValidOrder [nodeA, nodeB] 0 ((GetMasternodeScores [nodeA, nodeB] 0 1).reverse)
    ∧ GetMasternodeRank nodeA.id (some 0)
        (GetMasternodeScores [nodeA, nodeB] 0 1) = GoResult.ret (1, true)
    ∧ GetMasternodeRank nodeA.id (some 0)
        ((GetMasternodeScores [nodeA, nodeB] 0 1).reverse) = GoResult.ret (2, true) :=
  ⟨List.Perm.refl _, List.reverse_perm _, by decide, by decide⟩

/-- Claim C5: the claim states that an identity not found in the ranking is
rejected by the lock-vote gate.  The code contradicts it: for the absent
active identity idZ the rank query returns 0 with ok true, the check rank
greater than SIGNATURES_TOTAL fails for 0, and the vote is forwarded, so the
gate authorizes an identity that is not in the ranking at all. -/
theorem c5_absent_identity_authorized :
    lookupNode [nodeA] idZ = none
    ∧ ProcessTxLockVotesGate idZ (some 0) (GetMasternodeScores [nodeA] 0 1)
        = GoResult.ret true :=
  ⟨by decide, by decide⟩

/-- Claim C6 counterexample: the claim states that the rank query reports
found false when the identity is not in the filtered set.  The code returns
rank 0 with found true for the absent identity idQ. -/
theorem c6_absent_identity_reported_found :
    lookupNode [nodeA] idQ = none
    ∧ GetMasternodeRank idQ (some 0) (GetMasternodeScores [nodeA] 0 1)
        = GoResult.ret (0, true) :=
  ⟨by decide, by decide⟩

/-- Claim C6 as amended: whenever a current block exists, the rank query
returns with the found flag true in every case; an identity absent from the
registry yields rank 0 (with found true, not false), and a present identity
yields the 1-based position of the first matching entry of the traversal
order of the scores map. -/
theorem c6_rank_query_found_flag (id : String) (h : Nat) (reg : List Node)
    (order : List (ScorePtr × Node)) (hord : ValidOrder reg h order) :
    (∃ r, GetMasternodeRank id (some h) order = GoResult.ret (r, true))
    ∧ ((∀ n ∈ reg, n.id ≠ id) →
        GetMasternodeRank id (some h) order = GoResult.ret (0, true))
    ∧ ((∃ n ∈ reg, n.id = id) → ∃ r, 0 < r ∧ r ≤ order.length
        ∧ GetMasternodeRank id (some h) order = GoResult.ret (r, true)
        ∧ ∃ e, order.get? (r - 1) = some e ∧ e.2.id = id) := by
  refine ⟨⟨findRank id order, rfl⟩, ?_, ?_⟩
  · intro habs
    have hz : findRank id order = 0 :=
      (findRank_eq_zero_iff id order).mpr fun e he =>
        habs e.2 (mem_order_node reg h order hord e he)
    simp [GetMasternodeRank, hz]
  · rintro ⟨n, hn, hid⟩
    rcases node_mem_order reg h order hord n hn with ⟨e, he, hsnd⟩
    have hex : ∃ x ∈ order, x.2.id = id := ⟨e, he, by rw [hsnd]; exact hid⟩
    rcases findRank_pos_spec id order hex with ⟨hpos, hle, e2, hget, hid2⟩
    exact ⟨findRank id order, hpos, hle, rfl, e2, hget, hid2⟩

/-- Claim C6 witness: the amended theorem applied to the concrete registry
[nodeB] and the absent identity idQ, with the insertion order of the scores
map as traversal order. -/
theorem c6_rank_query_found_flag_witness :
    GetMasternodeRank idQ (some 3) (GetMasternodeScores [nodeB] 3 1)
      = GoResult.ret (0, true) :=
  (c6_rank_query_found_flag idQ 3 [nodeB] (GetMasternodeScores [nodeB] 3 1)
    (List.Perm.refl _)).2.1 (by decide)

/-- Claim C7 counterexample: the claim states that an empty registry makes
payment selection fail with an EmptyRegistry error.  The code returns winner
nil together with error nil, an entirely silent success. -/
theorem c7_empty_registry_not_an_error :
    GetNextMasternodeInQueueForPayment (some []) 0 = GoResult.ret (none, none) := rfl

/-- Claim C7 as amended: for every block hash, payment selection on an empty
registry returns no winner and no error (silent nil result); the only error
the code can return is the one for a nil masternode set object. -/
theorem c7_empty_registry_silent_nil (blockHash : Nat) :
    GetNextMasternodeInQueueForPayment (some []) blockHash
      = GoResult.ret (none, none) := rfl

/-- Claim C8: the claim states that after a stream error the membership loop
never continues consuming and applying membership events.  The code
contradicts it: delivering an error on the quit subscription error channel
merely unsubscribes that one stream and prints; the loop then consumes a
following join event and applies it to the registry. -/
theorem c8_loop_continues_after_stream_error :
    masternodeLoopRun ⟨[], true, true⟩ [MnEvent.quitErr, MnEvent.join nodeA.id]
      = ⟨[nodeA.id], true, false⟩ := by decide

/-- Claim C9: the active-node re-evaluation yields NotCapable when the local
identity is absent from the registry, NotCapable when the registered IP or
port differs from the locally bound endpoint, Started when present with a
matching endpoint; no other state is produced, and re-running the evaluation
with unchanged inputs yields the same result. -/
theorem c9_update_active_state (reg : List Node) (a : ActiveMasternode) :
    ((updateActiveMasternode reg a).state = ActiveState.notCapable
      ∨ (updateActiveMasternode reg a).state = ActiveState.started)
    ∧ (lookupNode reg a.id = none →
        (updateActiveMasternode reg a).state = ActiveState.notCapable)
    ∧ (∀ n, lookupNode reg a.id = some n → (n.ip ≠ a.ip ∨ n.tcp ≠ a.port) →
        (updateActiveMasternode reg a).state = ActiveState.notCapable)
    ∧ (∀ n, lookupNode reg a.id = some n → n.ip = a.ip → n.tcp = a.port →
        (updateActiveMasternode reg a).state = ActiveState.started)
    ∧ updateActiveMasternode reg (updateActiveMasternode reg a)
        = updateActiveMasternode reg a := by
  have hstate : (updateActiveMasternode reg a).state
      = computeActiveState reg a.id a.ip a.port := rfl
  refine ⟨?_, ?_, ?_, ?_, rfl⟩
  · rw [hstate]; unfold computeActiveState
    cases lookupNode reg a.id with
    | none => exact Or.inl rfl
    | some n =>
        by_cases h1 : n.tcp ≠ a.port
        · simp [h1]
        · by_cases h2 : n.ip ≠ a.ip
          · simp [h1, h2]
          · simp [h1, h2]
  · intro hnone; rw [hstate]; unfold computeActiveState; rw [hnone]
  · intro n hsome hmis; rw [hstate]; unfold computeActiveState; rw [hsome]
    rcases hmis with h | h
    · by_cases h1 : n.tcp ≠ a.port
      · simp [h1]
      · simp [h1, h]
    · simp [h]
  · intro n hsome hip hport; rw [hstate]; unfold computeActiveState; rw [hsome]
    simp [hip, hport]

/-- Claim C9 witness: the theorem applied to the registry [nodeA] and a local
active masternode configured exactly as nodeA registers, yielding Started. -/
theorem c9_update_active_state_witness :
    (updateActiveMasternode [nodeA] activeA).state = ActiveState.started :=
  (c9_update_active_state [nodeA] activeA).2.2.2.1 nodeA (by decide) (by decide)
    (by decide)

/-- Claim C10: the score collection returns one entry per registered
masternode: its length equals the registry size, its keys (the freshly
allocated score pointers) are pairwise distinct so no two entries collapse
even when the numeric score values coincide, and its values are exactly the
registry records. -/
theorem c10_scores_one_entry_per_node (nodes : List Node) (blockHash : Nat)
    (minProtocol : Int) :
    (GetMasternodeScores nodes blockHash minProtocol).length = nodes.length
    ∧ ((GetMasternodeScores nodes blockHash minProtocol).map Prod.fst).Nodup
    ∧ (GetMasternodeScores nodes blockHash minProtocol).map Prod.snd = nodes := by
  refine ⟨?_, ?_, scores_map_snd nodes blockHash minProtocol⟩
  · simp [GetMasternodeScores]
  · have halloc : (((GetMasternodeScores nodes blockHash minProtocol).map
        Prod.fst).map ScorePtr.alloc) = List.range nodes.length := by
      unfold GetMasternodeScores
      rw [List.map_map, List.map_map]
      have hc : ((ScorePtr.alloc ∘ Prod.fst) ∘ fun p : Nat × Node =>
          ((⟨p.1, CalculateScore p.2.id blockHash⟩ : ScorePtr), p.2))
            = Prod.fst := rfl
      rw [hc, List.enum_map_fst]
    have hnodup : (((GetMasternodeScores nodes blockHash minProtocol).map
        Prod.fst).map ScorePtr.alloc).Nodup := by
      rw [halloc]; exact List.nodup_range _
    exact List.Nodup.of_map ScorePtr.alloc hnodup

end Masternode
